import Mathlib

/-
Verification of the trading-bot core against its specification.

The definitions below are shallow embeddings of the Python source:
  - app/signal_queue.py     (per-key signal queue; modelled as a labelled
    transition system over the state of one key)
  - app/brokers/__init__.py (BrokerService.ensure_position,
    _should_update_stop_orders)
  - app/brokers/finam.py, app/brokers/tinvest.py (calculate_position_size,
    get_position_waiting_for_state, get_money_balance)
  - app/signal_service.py   (_calculate_profit)
  - app/schemas.py          (Instrument.from_string / __str__)

Python floats are modelled as rationals, quantities as integers, and
fallible code as Except / Option.
-/

namespace Trading

/-! Section: Signal queue (app/signal_queue.py)

We model the dispatcher for a single key.  `SignalQueue._waiting[key]` and
`SignalQueue._processing[key]` are the two slots; each submitted worker task
runs `_process_waiting_signal_key`, whose program counter we track:

  - `submitted`: the task has been submitted (by `enqueue_signal`, or by the
    tail call at the end of `_process_waiting_signal_key`) but has not yet
    executed its first locked block (lines 98-102);
  - `running sig`: the task moved `sig` from waiting to processing and is
    inside `_process_queued_signal` (line 104);
  - `done`: the task finished with nothing left waiting;
  - `crashed`: the task raised `KeyError` (the unguarded `self._waiting[key]`
    on line 99, or `del self._processing[key]` on line 108 with the key
    absent) and died.

Signals are identified by naturals.  Each transition is one atomic locked
block of the source; `enqueue_signal`'s executor submit (line 92) happens
outside the lock, but a submitted-yet-unscheduled task is inert, so folding
the submit into the enqueue step loses no reachable behaviour. -/

inductive WStatus where
  | submitted : WStatus
  | running : Nat → WStatus
  | done : WStatus
  | crashed : WStatus
deriving DecidableEq, Repr

structure QState where
  waiting : Option Nat
  processing : Option Nat
  workers : List WStatus
deriving DecidableEq, Repr

/-- Initial state of a key: both slots empty, no worker tasks. -/
def qInit : QState := ⟨none, none, []⟩

/-- One atomic step of the queue for a fixed key. -/
inductive QStep : QState → QState → Prop where
  /-- Transition for `enqueue_signal` lines 68-92: overwrite the waiting slot; submit a
  worker task iff the processing slot is empty. -/
  | enqueue (s : QState) (sig : Nat) :
      QStep s ⟨some sig, s.processing,
        if s.processing = none then s.workers ++ [WStatus.submitted] else s.workers⟩
  /-- Transition for `_process_waiting_signal_key` lines 98-102 when the waiting slot is
  occupied: move it to processing. -/
  | popOk (s : QState) (i sig : Nat)
      (hw : s.workers[i]? = some WStatus.submitted)
      (hq : s.waiting = some sig) :
      QStep s ⟨none, some sig, s.workers.set i (WStatus.running sig)⟩
  /-- Transition for `_process_waiting_signal_key` line 99 when the waiting slot is empty:
  `self._waiting[key]` raises `KeyError` and the worker dies. -/
  | popCrash (s : QState) (i : Nat)
      (hw : s.workers[i]? = some WStatus.submitted)
      (hq : s.waiting = none) :
      QStep s ⟨s.waiting, s.processing, s.workers.set i WStatus.crashed⟩
  /-- Lines 107-118: after `_process_queued_signal` returns, delete the
  processing entry; if something is waiting, loop (the tail call re-enters
  the locked pop block, i.e. the worker becomes `submitted` again). -/
  | finishOk (s : QState) (i sig : Nat)
      (hw : s.workers[i]? = some (WStatus.running sig))
      (hp : s.processing.isSome) :
      QStep s ⟨s.waiting, none,
        s.workers.set i (if s.waiting.isSome then WStatus.submitted else WStatus.done)⟩
  /-- Line 108 when the processing entry was already deleted by another
  worker of the same key: `del self._processing[key]` raises `KeyError`. -/
  | finishCrash (s : QState) (i sig : Nat)
      (hw : s.workers[i]? = some (WStatus.running sig))
      (hp : s.processing = none) :
      QStep s ⟨s.waiting, s.processing, s.workers.set i WStatus.crashed⟩

/-- Reflexive-transitive closure: the state is reachable by some interleaving. -/
inductive Reach (r : QState → QState → Prop) : QState → QState → Prop where
  | refl (a : QState) : Reach r a a
  | tail (a b c : QState) : Reach r a b → r b c → Reach r a c

/-- Transport a step along an equality of target states. -/
theorem QStep.cast (a b b' : QState) (h : QStep a b) (e : b = b') : QStep a b' :=
  e ▸ h

/-- The interleaving refuting C1 and C2: two `enqueue_signal` calls arrive
before the first submitted worker runs, so a second worker is submitted for
the same key. -/
def qRace : QState := ⟨some 2, none, [WStatus.submitted, WStatus.submitted]⟩

theorem qRace_reachable : Reach QStep qInit qRace := by
  apply Reach.tail _ ⟨some 1, none, [WStatus.submitted]⟩ _
  · apply Reach.tail _ qInit _ (Reach.refl qInit)
    exact QStep.cast _ _ _ (QStep.enqueue qInit 1) (by decide)
  · exact QStep.cast _ _ _ (QStep.enqueue ⟨some 1, none, [WStatus.submitted]⟩ 2) (by decide)

/-- State in which the executions of signals 2 and 3 (same key) overlap. -/
def qOverlap : QState := ⟨none, some 3, [WStatus.running 2, WStatus.running 3]⟩

/-- State in which a submitted worker found the waiting slot empty and
crashed on the unguarded `self._waiting[key]`. -/
def qCrash : QState := ⟨none, some 2, [WStatus.running 2, WStatus.crashed]⟩

/-- Claim C1: per-key strict serialization.  REFUTED by the code: from the
race state, the first worker moves signal 2 into processing, signal 3 is
enqueued (no new worker: processing is occupied), and the second, still
pending worker then moves signal 3 into processing while the first is still
executing signal 2 — two signals of the same key run concurrently. -/
theorem claim_C1_serialization_violated :
    Reach QStep qInit qOverlap ∧
    qOverlap.workers[0]? = some (WStatus.running 2) ∧
    qOverlap.workers[1]? = some (WStatus.running 3) := by
  refine ⟨?_, by decide, by decide⟩
  apply Reach.tail _ ⟨some 3, some 2, [WStatus.running 2, WStatus.submitted]⟩ _
  · apply Reach.tail _ ⟨none, some 2, [WStatus.running 2, WStatus.submitted]⟩ _
    · apply Reach.tail _ qRace _ qRace_reachable
      exact QStep.cast _ _ _ (QStep.popOk qRace 0 2 (by decide) (by decide)) (by decide)
    · exact QStep.cast _ _ _
        (QStep.enqueue ⟨none, some 2, [WStatus.running 2, WStatus.submitted]⟩ 3) (by decide)
  · exact QStep.cast _ _ _
      (QStep.popOk ⟨some 3, some 2, [WStatus.running 2, WStatus.submitted]⟩ 1 3
        (by decide) (by decide)) (by decide)

/-- Claim C2: worker precondition safety.  REFUTED by the code: from the
race state, the first worker empties the waiting slot; the second submitted
worker then begins with `waiting[key]` absent and the unguarded
`self._waiting[key]` raises `KeyError`. -/
theorem claim_C2_worker_precondition_violated :
    Reach QStep qInit qCrash ∧ qCrash.workers[1]? = some WStatus.crashed := by
  refine ⟨?_, by decide⟩
  apply Reach.tail _ ⟨none, some 2, [WStatus.running 2, WStatus.submitted]⟩ _
  · apply Reach.tail _ qRace _ qRace_reachable
    exact QStep.cast _ _ _ (QStep.popOk qRace 0 2 (by decide) (by decide)) (by decide)
  · exact QStep.cast _ _ _
      (QStep.popCrash ⟨none, some 2, [WStatus.running 2, WStatus.submitted]⟩ 1
        (by decide) (by decide)) (by decide)

/-! Section: Broker data model (app/brokers/__init__.py) -/

structure InstrumentInfo where
  instrument : String
  name : String
  type : String
  currency : String
  lot_size : ℚ
  min_price_step : ℚ
  initial_margin_long : Option ℚ
  initial_margin_short : Option ℚ
deriving DecidableEq, Repr

structure Position where
  instrument : String
  quantity : Int
  average_price : ℚ
deriving DecidableEq, Repr

structure OrderResult where
  date : Int
  price : ℚ
deriving DecidableEq, Repr

structure EnsureOrder where
  type : String
  quantity : Int
  order_id : String
  action : Option String
  price : Option ℚ
  result : Option OrderResult
deriving DecidableEq, Repr

structure StopOrder where
  order_id : String
  order_type : String
  direction : String
  quantity : Int
  price : Option ℚ
  stop_price : Option ℚ
  exchange_order_type : String
deriving DecidableEq, Repr

structure TradingErr where
  code : String
  message : String
deriving DecidableEq, Repr

/-! Section: `BrokerService._should_update_stop_orders` (brokers/__init__.py 116-139)

The loop carries `current_stop_price` / `current_take_price` (both start as
Python `None`); it returns `True` early when it meets a `stop_loss` order
while `current_stop_price` is not `None` (similarly for `take_profit`), else
records the order's `stop_price` (which may itself be `None`); after the
loop it compares the requested prices with the recorded ones. -/

def shouldUpdateAux (sp tp : Option ℚ) :
    List StopOrder → Option ℚ → Option ℚ → Bool
  | [], csp, ctp => decide (sp ≠ csp) || decide (tp ≠ ctp)
  | o :: rest, csp, ctp =>
    if o.order_type = "stop_loss" then
      if csp.isSome then true else shouldUpdateAux sp tp rest o.stop_price ctp
    else if o.order_type = "take_profit" then
      if ctp.isSome then true else shouldUpdateAux sp tp rest csp o.stop_price
    else shouldUpdateAux sp tp rest csp ctp

def shouldUpdateStopOrders (stop_orders : List StopOrder) (sp tp : Option ℚ) : Bool :=
  shouldUpdateAux sp tp stop_orders none none

/-- The `stop_price` fields of the stop orders of one kind, in order. -/
def pricesOfType (t : String) (orders : List StopOrder) : List (Option ℚ) :=
  (orders.filter (fun o => o.order_type = t)).map (fun o => o.stop_price)

/-- Starting from the recorded price `c`, scanning the remaining prices of
one kind triggers the duplicate early-return iff some scanned order is
entered while the previously recorded price is present. -/
def scanDup (c : Option ℚ) : List (Option ℚ) → Bool
  | [] => false
  | p :: rest => c.isSome || scanDup p rest

/-- The price recorded after the loop: the last one of the kind, or the
starting value when there is none. -/
def lastOr (c : Option ℚ) : List (Option ℚ) → Option ℚ
  | [] => c
  | p :: ps => lastOr p ps

theorem lastOr_cons (c p : Option ℚ) (ps : List (Option ℚ)) :
    lastOr c (p :: ps) = lastOr p ps := rfl

theorem shouldUpdateAux_characterization (sp tp : Option ℚ) (orders : List StopOrder)
    (csp ctp : Option ℚ) :
    shouldUpdateAux sp tp orders csp ctp =
      (scanDup csp (pricesOfType "stop_loss" orders) ||
       scanDup ctp (pricesOfType "take_profit" orders) ||
       decide (sp ≠ lastOr csp (pricesOfType "stop_loss" orders)) ||
       decide (tp ≠ lastOr ctp (pricesOfType "take_profit" orders))) := by
  induction orders generalizing csp ctp with
  | nil => simp [shouldUpdateAux, pricesOfType, scanDup, lastOr]
  | cons o rest ih =>
    by_cases hsl : o.order_type = "stop_loss"
    · rcases h : csp with _ | v
      · simp [shouldUpdateAux, pricesOfType, scanDup, hsl, ih, lastOr_cons]
      · simp [shouldUpdateAux, pricesOfType, scanDup, hsl]
    · by_cases htp : o.order_type = "take_profit"
      · rcases h : ctp with _ | v
        · simp [shouldUpdateAux, pricesOfType, scanDup, hsl, htp, ih, lastOr_cons]
        · simp [shouldUpdateAux, pricesOfType, scanDup, hsl, htp]
      · simp [shouldUpdateAux, pricesOfType, hsl, htp, ih]

/-- Claim C5, counterexample: two `stop_loss` orders whose `stop_price` is
absent, with no price requested.  The claim demands `true` (more than one
stop-loss order), but the code returns `false`: the duplicate check fires
only when the previously recorded stop price is not `None`. -/
theorem claim_C5_counterexample :
    ((([⟨"o1", "stop_loss", "sell", 1, none, none, "market"⟩,
        ⟨"o2", "stop_loss", "sell", 1, none, none, "market"⟩] : List StopOrder).filter
          (fun o => o.order_type = "stop_loss")).length = 2) ∧
    shouldUpdateStopOrders
      [⟨"o1", "stop_loss", "sell", 1, none, none, "market"⟩,
       ⟨"o2", "stop_loss", "sell", 1, none, none, "market"⟩] none none = false := by
  constructor
  · decide
  · rfl

/-- Claim C5, amended: `_should_update_stop_orders` returns true iff some
stop-loss order is preceded (among the stop-loss orders) by one whose
`stop_price` is present, or likewise for take-profit orders, or the
requested `stop_price` differs from the last stop-loss's `stop_price`
(absent when there is none), or the requested `take_price` differs from the
last take-profit's `stop_price`.  In particular a duplicate whose earlier
copy carries an absent `stop_price` does not by itself force an update. -/
theorem claim_C5_amended (orders : List StopOrder) (sp tp : Option ℚ) :
    shouldUpdateStopOrders orders sp tp =
      (scanDup none (pricesOfType "stop_loss" orders) ||
       scanDup none (pricesOfType "take_profit" orders) ||
       decide (sp ≠ lastOr none (pricesOfType "stop_loss" orders)) ||
       decide (tp ≠ lastOr none (pricesOfType "take_profit" orders))) := by
  exact shouldUpdateAux_characterization sp tp orders none none

/-! Section: `BrokerService.ensure_position` (brokers/__init__.py 141-241)

The broker's responses are an oracle (`BrokerEnv`): the stop orders
observed by the two `get_current_stop_orders` calls, the values returned by
`calculate_position_size`, the outcome of `get_position_waiting_for_state`
(`none` models the settlement-timeout raise), and the order ids handed out
by the broker (indexed by the number of orders placed so far).  Next to the
returned `(final_position, orders)` the embedding records the sequence of
broker side effects as a trace of `BrokerEvent`s. -/

inductive BrokerEvent where
  | getStopOrders (orders : List StopOrder)
  | cancelStops (orders : List StopOrder)
  | marketOrder (direction : String) (quantity : Int)
  | calcSize (direction : String) (size : Int)
  | settleWait (expected : Int)
  | placeStopLoss (direction : String) (quantity : Int) (stop_price : ℚ)
  | placeTakeProfit (direction : String) (quantity : Int) (take_price : ℚ)
deriving DecidableEq, Repr

structure BrokerEnv where
  initStopOrders : List StopOrder
  sizeLong : Int
  sizeShort : Int
  settle : Int → Option (Option Position)
  finalStopOrders : List StopOrder
  orderId : Nat → String

/-- Embeds `init_position.quantity if init_position else 0` (line 143). -/
def posQty : Option Position → Int
  | some p => p.quantity
  | none => 0

/-- Lines 150-206: the trade branch.  Returns the orders appended, the
events emitted, `expected_pos_qty`, and the next order-id index. -/
def tradePhase (env : BrokerEnv) (initPosQty : Int) (desiredPosition : String) (k : Nat) :
    List EnsureOrder × List BrokerEvent × Int × Nat :=
  if desiredPosition = "long" then
    if initPosQty ≤ 0 then
      let closeOrders : List EnsureOrder :=
        if initPosQty < 0 then
          [⟨"buy", -initPosQty, env.orderId k, some "close_short", none, none⟩] else []
      let closeEvents : List BrokerEvent :=
        if initPosQty < 0 then
          [.cancelStops env.initStopOrders, .marketOrder "buy" (-initPosQty)] else []
      let k1 := if initPosQty < 0 then k + 1 else k
      let availableQty := env.sizeLong
      if availableQty > 0 then
        (closeOrders ++ [⟨"buy", availableQty, env.orderId k1, some "open_long", none, none⟩],
         closeEvents ++ [.calcSize "long" availableQty, .marketOrder "buy" availableQty],
         availableQty, k1 + 1)
      else
        (closeOrders, closeEvents ++ [.calcSize "long" availableQty], availableQty, k1)
    else ([], [], initPosQty, k)
  else if desiredPosition = "short" then
    if 0 ≤ initPosQty then
      let closeOrders : List EnsureOrder :=
        if 0 < initPosQty then
          [⟨"sell", initPosQty, env.orderId k, some "close_long", none, none⟩] else []
      let closeEvents : List BrokerEvent :=
        if 0 < initPosQty then
          [.cancelStops env.initStopOrders, .marketOrder "sell" initPosQty] else []
      let k1 := if 0 < initPosQty then k + 1 else k
      let availableQty := env.sizeShort
      if availableQty > 0 then
        (closeOrders ++ [⟨"sell", availableQty, env.orderId k1, some "open_short", none, none⟩],
         closeEvents ++ [.calcSize "short" availableQty, .marketOrder "sell" availableQty],
         -availableQty, k1 + 1)
      else
        (closeOrders, closeEvents ++ [.calcSize "short" availableQty], -availableQty, k1)
    else ([], [], initPosQty, k)
  else if desiredPosition = "flat" then
    if 0 < initPosQty then
      ([⟨"sell", initPosQty, env.orderId k, some "close_long", none, none⟩],
       [.marketOrder "sell" initPosQty], 0, k + 1)
    else if initPosQty < 0 then
      ([⟨"buy", -initPosQty, env.orderId k, some "close_short", none, none⟩],
       [.marketOrder "buy" (-initPosQty)], 0, k + 1)
    else ([], [], 0, k)
  else ([], [], initPosQty, k)

/-- Lines 214-239: the stop-refresh branch, entered when the quantity
changed or `_should_update_stop_orders` holds.  A requested price is only
placed when truthy (Python `if stop_price:` also rejects `0.0`). -/
def stopPhase (env : BrokerEnv) (finalPosQty initPosQty : Int) (sp tp : Option ℚ) (k : Nat) :
    List EnsureOrder × List BrokerEvent :=
  if finalPosQty ≠ initPosQty ∨ shouldUpdateStopOrders env.finalStopOrders sp tp = true then
    if 0 < finalPosQty then
      let sl : List EnsureOrder × List BrokerEvent × Nat :=
        match sp with
        | some p =>
          if p ≠ 0 then
            ([⟨"stop_loss", finalPosQty, env.orderId k, none, some p, none⟩],
             [.placeStopLoss "sell" finalPosQty p], k + 1)
          else ([], [], k)
        | none => ([], [], k)
      let tk : List EnsureOrder × List BrokerEvent × Nat :=
        match tp with
        | some p =>
          if p ≠ 0 then
            ([⟨"take_profit", finalPosQty, env.orderId sl.2.2, none, some p, none⟩],
             [.placeTakeProfit "sell" finalPosQty p], sl.2.2 + 1)
          else ([], [], sl.2.2)
        | none => ([], [], sl.2.2)
      (sl.1 ++ tk.1, .cancelStops env.finalStopOrders :: (sl.2.1 ++ tk.2.1))
    else if finalPosQty < 0 then
      let sl : List EnsureOrder × List BrokerEvent × Nat :=
        match sp with
        | some p =>
          if p ≠ 0 then
            ([⟨"stop_loss", -finalPosQty, env.orderId k, none, some p, none⟩],
             [.placeStopLoss "buy" (-finalPosQty) p], k + 1)
          else ([], [], k)
        | none => ([], [], k)
      let tk : List EnsureOrder × List BrokerEvent × Nat :=
        match tp with
        | some p =>
          if p ≠ 0 then
            ([⟨"take_profit", -finalPosQty, env.orderId sl.2.2, none, some p, none⟩],
             [.placeTakeProfit "buy" (-finalPosQty) p], sl.2.2 + 1)
          else ([], [], sl.2.2)
        | none => ([], [], sl.2.2)
      (sl.1 ++ tk.1, .cancelStops env.finalStopOrders :: (sl.2.1 ++ tk.2.1))
    else ([], [.cancelStops env.finalStopOrders])
  else ([], [])

/-- The whole of `ensure_position`: observe initial stops, run the trade
branch, wait for settlement (a timeout aborts the run), observe final
stops, run the stop-refresh branch. -/
def ensurePosition (env : BrokerEnv) (instrumentInfo : InstrumentInfo)
    (initPosition : Option Position) (desiredPosition : String)
    (leveragePercent reserveCapital : ℚ) (stopPrice takePrice : Option ℚ) :
    Except TradingErr (Option Position) × List EnsureOrder × List BrokerEvent :=
  let initPosQty := posQty initPosition
  let t := tradePhase env initPosQty desiredPosition 0
  let preEvents := BrokerEvent.getStopOrders env.initStopOrders ::
    t.2.1 ++ [BrokerEvent.settleWait t.2.2.1]
  match env.settle t.2.2.1 with
  | none =>
    (Except.error ⟨"POSITION_STATE_READY_TIMEOUT", "position state ready timeout"⟩,
     t.1, preEvents)
  | some finalPosition =>
    let s := stopPhase env (posQty finalPosition) initPosQty stopPrice takePrice t.2.2.2
    (Except.ok finalPosition, t.1 ++ s.1,
     preEvents ++ BrokerEvent.getStopOrders env.finalStopOrders :: s.2)

/-- The signed trade-leg value of one order: buys count positively, sells
negatively, stop orders not at all. -/
def legValue (o : EnsureOrder) : Int :=
  if o.type = "buy" then o.quantity else if o.type = "sell" then -o.quantity else 0

/-- Net signed sum of the trade legs of an order list. -/
def netLegs (orders : List EnsureOrder) : Int := (orders.map legValue).sum

theorem netLegs_append (a b : List EnsureOrder) :
    netLegs (a ++ b) = netLegs a + netLegs b := by
  simp [netLegs]

def isTradePhaseEvent : BrokerEvent → Bool
  | .cancelStops _ => true
  | .marketOrder _ _ => true
  | .calcSize _ _ => true
  | _ => false

def isStopPhaseEvent : BrokerEvent → Bool
  | .cancelStops _ => true
  | .placeStopLoss _ _ _ => true
  | .placeTakeProfit _ _ _ => true
  | _ => false

def isStopPlacement : BrokerEvent → Bool
  | .placeStopLoss _ _ _ => true
  | .placeTakeProfit _ _ _ => true
  | _ => false

theorem tradePhase_events_kinds (env : BrokerEnv) (q : Int) (d : String) (k : Nat) :
    ∀ ev ∈ (tradePhase env q d k).2.1, isTradePhaseEvent ev = true := by
  by_cases hd1 : d = "long"
  · by_cases hq1 : q ≤ 0
    · by_cases hq2 : q < 0 <;> by_cases hs : env.sizeLong > 0 <;>
        simp [tradePhase, isTradePhaseEvent, hd1, hq1, hq2, hs, List.forall_mem_cons]
    · simp [tradePhase, hd1, hq1]
  · by_cases hd2 : d = "short"
    · by_cases hq1 : 0 ≤ q
      · by_cases hq2 : 0 < q <;> by_cases hs : env.sizeShort > 0 <;>
          simp [tradePhase, isTradePhaseEvent, hd1, hd2, hq1, hq2, hs, List.forall_mem_cons]
      · simp [tradePhase, hd1, hd2, hq1]
    · by_cases hd3 : d = "flat"
      · by_cases hq1 : 0 < q
        · simp [tradePhase, isTradePhaseEvent, hd1, hd2, hd3, hq1, List.forall_mem_cons]
        · by_cases hq2 : q < 0 <;>
            simp [tradePhase, isTradePhaseEvent, hd1, hd2, hd3, hq1, hq2, List.forall_mem_cons]
      · simp [tradePhase, hd1, hd2, hd3]

theorem stopPhase_events_kinds (env : BrokerEnv) (fq iq : Int) (sp tp : Option ℚ) (k : Nat) :
    ∀ ev ∈ (stopPhase env fq iq sp tp k).2, isStopPhaseEvent ev = true := by
  by_cases hu : fq ≠ iq ∨ shouldUpdateStopOrders env.finalStopOrders sp tp = true
  · by_cases hpos : 0 < fq
    · rcases sp with _ | p <;> rcases tp with _ | p'
      · simp [stopPhase, isStopPhaseEvent, hu, hpos, List.forall_mem_cons]
      · rcases eq_or_ne p' 0 with hp' | hp'
        · subst hp'
          simp [stopPhase, isStopPhaseEvent, hu, hpos, List.forall_mem_cons]
        · simp [stopPhase, isStopPhaseEvent, hu, hpos, hp', List.forall_mem_cons]
      · rcases eq_or_ne p 0 with hp | hp
        · subst hp
          simp [stopPhase, isStopPhaseEvent, hu, hpos, List.forall_mem_cons]
        · simp [stopPhase, isStopPhaseEvent, hu, hpos, hp, List.forall_mem_cons]
      · rcases eq_or_ne p 0 with hp | hp <;> rcases eq_or_ne p' 0 with hp' | hp'
        · subst hp; subst hp'
          simp [stopPhase, isStopPhaseEvent, hu, hpos, List.forall_mem_cons]
        · subst hp
          simp [stopPhase, isStopPhaseEvent, hu, hpos, hp', List.forall_mem_cons]
        · subst hp'
          simp [stopPhase, isStopPhaseEvent, hu, hpos, hp, List.forall_mem_cons]
        · simp [stopPhase, isStopPhaseEvent, hu, hpos, hp, hp', List.forall_mem_cons]
    · by_cases hneg : fq < 0
      · rcases sp with _ | p <;> rcases tp with _ | p'
        · simp [stopPhase, isStopPhaseEvent, hu, hpos, hneg, List.forall_mem_cons]
        · rcases eq_or_ne p' 0 with hp' | hp'
          · subst hp'
            simp [stopPhase, isStopPhaseEvent, hu, hpos, hneg, List.forall_mem_cons]
          · simp [stopPhase, isStopPhaseEvent, hu, hpos, hneg, hp', List.forall_mem_cons]
        · rcases eq_or_ne p 0 with hp | hp
          · subst hp
            simp [stopPhase, isStopPhaseEvent, hu, hpos, hneg, List.forall_mem_cons]
          · simp [stopPhase, isStopPhaseEvent, hu, hpos, hneg, hp, List.forall_mem_cons]
        · rcases eq_or_ne p 0 with hp | hp <;> rcases eq_or_ne p' 0 with hp' | hp'
          · subst hp; subst hp'
            simp [stopPhase, isStopPhaseEvent, hu, hpos, hneg, List.forall_mem_cons]
          · subst hp
            simp [stopPhase, isStopPhaseEvent, hu, hpos, hneg, hp', List.forall_mem_cons]
          · subst hp'
            simp [stopPhase, isStopPhaseEvent, hu, hpos, hneg, hp, List.forall_mem_cons]
          · simp [stopPhase, isStopPhaseEvent, hu, hpos, hneg, hp, hp', List.forall_mem_cons]
      · simp [stopPhase, isStopPhaseEvent, hu, hpos, hneg, List.forall_mem_cons]
  · simp [stopPhase, hu]

theorem isTradePhaseEvent_not_placement (ev : BrokerEvent)
    (h : isTradePhaseEvent ev = true) : isStopPlacement ev = false := by
  cases ev <;> simp_all [isTradePhaseEvent, isStopPlacement]

theorem isTradePhaseEvent_not_settle (ev : BrokerEvent) (e : Int)
    (h : isTradePhaseEvent ev = true) : ev ≠ BrokerEvent.settleWait e := by
  cases ev <;> simp_all [isTradePhaseEvent]

theorem isStopPhaseEvent_not_settle (ev : BrokerEvent) (e : Int)
    (h : isStopPhaseEvent ev = true) : ev ≠ BrokerEvent.settleWait e := by
  cases ev <;> simp_all [isStopPhaseEvent]

/-- With a nonnegative sizing result, the trade legs of the trade branch
net to `expected_pos_qty - init_pos_qty`. -/
theorem tradePhase_netLegs (env : BrokerEnv) (q : Int) (d : String) (k : Nat)
    (hL : 0 ≤ env.sizeLong) (hS : 0 ≤ env.sizeShort) :
    netLegs (tradePhase env q d k).1 = (tradePhase env q d k).2.2.1 - q := by
  by_cases hd1 : d = "long"
  · by_cases hq1 : q ≤ 0
    · by_cases hq2 : q < 0 <;> by_cases hs : env.sizeLong > 0 <;>
        simp [tradePhase, netLegs, legValue, hd1, hq1, hq2, hs] <;> omega
    · simp [tradePhase, netLegs, hd1, hq1]
  · by_cases hd2 : d = "short"
    · by_cases hq1 : 0 ≤ q
      · by_cases hq2 : 0 < q <;> by_cases hs : env.sizeShort > 0 <;>
          simp [tradePhase, netLegs, legValue, hd1, hd2, hq1, hq2, hs] <;> omega
      · simp [tradePhase, netLegs, hd1, hd2, hq1]
    · by_cases hd3 : d = "flat"
      · by_cases hq1 : 0 < q
        · simp [tradePhase, netLegs, legValue, hd1, hd2, hd3, hq1]
        · by_cases hq2 : q < 0 <;>
            simp [tradePhase, netLegs, legValue, hd1, hd2, hd3, hq1, hq2] <;> omega
      · simp [tradePhase, netLegs, hd1, hd2, hd3]

/-- The stop-refresh branch only appends stop orders: no trade legs. -/
theorem stopPhase_netLegs (env : BrokerEnv) (fq iq : Int) (sp tp : Option ℚ) (k : Nat) :
    netLegs (stopPhase env fq iq sp tp k).1 = 0 := by
  by_cases hu : fq ≠ iq ∨ shouldUpdateStopOrders env.finalStopOrders sp tp = true
  · by_cases hpos : 0 < fq
    · rcases sp with _ | p <;> rcases tp with _ | p'
      · simp [stopPhase, netLegs, legValue, hu, hpos]
      · rcases eq_or_ne p' 0 with hp' | hp'
        · subst hp'
          simp [stopPhase, netLegs, legValue, hu, hpos]
        · simp [stopPhase, netLegs, legValue, hu, hpos, hp']
      · rcases eq_or_ne p 0 with hp | hp
        · subst hp
          simp [stopPhase, netLegs, legValue, hu, hpos]
        · simp [stopPhase, netLegs, legValue, hu, hpos, hp]
      · rcases eq_or_ne p 0 with hp | hp <;> rcases eq_or_ne p' 0 with hp' | hp'
        · subst hp; subst hp'
          simp [stopPhase, netLegs, legValue, hu, hpos]
        · subst hp
          simp [stopPhase, netLegs, legValue, hu, hpos, hp']
        · subst hp'
          simp [stopPhase, netLegs, legValue, hu, hpos, hp]
        · simp [stopPhase, netLegs, legValue, hu, hpos, hp, hp']
    · by_cases hneg : fq < 0
      · rcases sp with _ | p <;> rcases tp with _ | p'
        · simp [stopPhase, netLegs, legValue, hu, hpos, hneg]
        · rcases eq_or_ne p' 0 with hp' | hp'
          · subst hp'
            simp [stopPhase, netLegs, legValue, hu, hpos, hneg]
          · simp [stopPhase, netLegs, legValue, hu, hpos, hneg, hp']
        · rcases eq_or_ne p 0 with hp | hp
          · subst hp
            simp [stopPhase, netLegs, legValue, hu, hpos, hneg]
          · simp [stopPhase, netLegs, legValue, hu, hpos, hneg, hp]
        · rcases eq_or_ne p 0 with hp | hp <;> rcases eq_or_ne p' 0 with hp' | hp'
          · subst hp; subst hp'
            simp [stopPhase, netLegs, legValue, hu, hpos, hneg]
          · subst hp
            simp [stopPhase, netLegs, legValue, hu, hpos, hneg, hp']
          · subst hp'
            simp [stopPhase, netLegs, legValue, hu, hpos, hneg, hp]
          · simp [stopPhase, netLegs, legValue, hu, hpos, hneg, hp, hp']
      · simp [stopPhase, netLegs, hu, hpos, hneg]
  · simp [stopPhase, netLegs, hu]

/-- Unfolding `ensure_position` when settlement succeeds. -/
theorem ensurePosition_ok (env : BrokerEnv) (info : InstrumentInfo)
    (ip : Option Position) (d : String) (lev res : ℚ) (sp tp : Option ℚ)
    (fpos : Option Position)
    (hs : env.settle (tradePhase env (posQty ip) d 0).2.2.1 = some fpos) :
    ensurePosition env info ip d lev res sp tp =
      (Except.ok fpos,
       (tradePhase env (posQty ip) d 0).1 ++
         (stopPhase env (posQty fpos) (posQty ip) sp tp
           (tradePhase env (posQty ip) d 0).2.2.2).1,
       (BrokerEvent.getStopOrders env.initStopOrders ::
         (tradePhase env (posQty ip) d 0).2.1 ++
           [BrokerEvent.settleWait (tradePhase env (posQty ip) d 0).2.2.1]) ++
         BrokerEvent.getStopOrders env.finalStopOrders ::
           (stopPhase env (posQty fpos) (posQty ip) sp tp
             (tradePhase env (posQty ip) d 0).2.2.2).2) := by
  unfold ensurePosition
  simp only []
  rw [hs]

/-- Unfolding `ensure_position` when settlement times out. -/
theorem ensurePosition_err (env : BrokerEnv) (info : InstrumentInfo)
    (ip : Option Position) (d : String) (lev res : ℚ) (sp tp : Option ℚ)
    (hs : env.settle (tradePhase env (posQty ip) d 0).2.2.1 = none) :
    ensurePosition env info ip d lev res sp tp =
      (Except.error ⟨"POSITION_STATE_READY_TIMEOUT", "position state ready timeout"⟩,
       (tradePhase env (posQty ip) d 0).1,
       BrokerEvent.getStopOrders env.initStopOrders ::
         (tradePhase env (posQty ip) d 0).2.1 ++
           [BrokerEvent.settleWait (tradePhase env (posQty ip) d 0).2.2.1]) := by
  unfold ensurePosition
  simp only []
  rw [hs]

/-- Claim C3, amended: in every successful `ensure_position` run in which
`calculate_position_size` returned nonnegative values, the trade legs net
to exactly the quantity passed to the settlement wait minus the initial
quantity.  (With a negative sizing value the opening leg is skipped while
`expected_pos_qty` still carries the negative value, so the identity
fails; see the counterexample.) -/
theorem claim_C3_amended (env : BrokerEnv) (info : InstrumentInfo)
    (initPosition : Option Position) (desired : String) (lev res : ℚ)
    (sp tp : Option ℚ) (fp : Option Position) (orders : List EnsureOrder)
    (events : List BrokerEvent) (e : Int)
    (hL : 0 ≤ env.sizeLong) (hS : 0 ≤ env.sizeShort)
    (h : ensurePosition env info initPosition desired lev res sp tp =
      (Except.ok fp, orders, events))
    (he : BrokerEvent.settleWait e ∈ events) :
    netLegs orders = e - posQty initPosition := by
  rcases hs : env.settle (tradePhase env (posQty initPosition) desired 0).2.2.1 with _ | fpos
  · rw [ensurePosition_err env info initPosition desired lev res sp tp hs] at h
    simp at h
  · rw [ensurePosition_ok env info initPosition desired lev res sp tp fpos hs] at h
    have hord := congrArg (fun t => t.2.1) h
    have hev := congrArg (fun t => t.2.2) h
    simp only at hord hev
    subst hord
    subst hev
    simp at he
    rcases he with he | he | he
    · exact absurd rfl
        (isTradePhaseEvent_not_settle _ e
          (tradePhase_events_kinds env (posQty initPosition) desired 0 _ he))
    · subst he
      rw [netLegs_append, tradePhase_netLegs env (posQty initPosition) desired 0 hL hS,
        stopPhase_netLegs]
      omega
    · exact absurd rfl
        (isStopPhaseEvent_not_settle _ e
          (stopPhase_events_kinds env (posQty fpos) (posQty initPosition) sp tp
            (tradePhase env (posQty initPosition) desired 0).2.2.2 _ he))

/-- A futures instrument used for concrete runs. -/
def c3Info : InstrumentInfo := ⟨"FUTSI", "SI", "futures", "RUB", 1, 1, some 50, some 50⟩

/-- Oracle on which `calculate_position_size` returns `-1` for long and the
broker happens to report a settled position of quantity `-1` (average price
nonzero), so the settlement wait succeeds at the negative expected value. -/
def c3Env : BrokerEnv :=
  ⟨[], -1, 0, fun e => if e = -1 then some (some ⟨"FUTSI", -1, 5⟩) else some none, [],
   fun _ => "oid"⟩

/-- Claim C3, counterexample: with `calculate_position_size` returning the
negative value `-1` on a flat account and a long signal, the run returns
successfully, the settlement wait is passed `expected_pos_qty = -1`, yet
the order list is empty: its legs net to `0 ≠ -1 - 0`. -/
theorem claim_C3_counterexample :
    (ensurePosition c3Env c3Info none "long" 100 0 none none).1 =
      Except.ok (some ⟨"FUTSI", -1, 5⟩) ∧
    BrokerEvent.settleWait (-1) ∈ (ensurePosition c3Env c3Info none "long" 100 0 none none).2.2 ∧
    netLegs (ensurePosition c3Env c3Info none "long" 100 0 none none).2.1 = 0 ∧
    (0 : Int) ≠ -1 - posQty none := by
  exact ⟨rfl, by decide, rfl, by decide⟩

/-- Oracle with zero sizing and an immediately settled flat position. -/
def c3WitnessEnv : BrokerEnv := ⟨[], 0, 0, fun _ => some none, [], fun _ => "oid"⟩

theorem claim_C3_amended_witness :
    netLegs (ensurePosition c3WitnessEnv c3Info none "flat" 100 0 none none).2.1 =
      0 - posQty none :=
  claim_C3_amended c3WitnessEnv c3Info none "flat" 100 0 none none
    none (ensurePosition c3WitnessEnv c3Info none "flat" 100 0 none none).2.1
    (ensurePosition c3WitnessEnv c3Info none "flat" 100 0 none none).2.2 0
    (by decide) (by decide) rfl (by decide)

/-! Section: Claim C8: ordering of broker side effects inside `ensure_position` -/

theorem tradePhase_long_flip (env : BrokerEnv) (q : Int) (k : Nat) (h : q < 0) :
    ∃ rest, (tradePhase env q "long" k).2.1 =
      BrokerEvent.cancelStops env.initStopOrders ::
      BrokerEvent.marketOrder "buy" (-q) :: rest := by
  by_cases hs : env.sizeLong > 0
  · exact ⟨[.calcSize "long" env.sizeLong, .marketOrder "buy" env.sizeLong],
      by simp [tradePhase, h, le_of_lt h, hs]⟩
  · exact ⟨[.calcSize "long" env.sizeLong],
      by simp [tradePhase, h, le_of_lt h, hs]⟩

theorem tradePhase_short_flip (env : BrokerEnv) (q : Int) (k : Nat) (h : 0 < q) :
    ∃ rest, (tradePhase env q "short" k).2.1 =
      BrokerEvent.cancelStops env.initStopOrders ::
      BrokerEvent.marketOrder "sell" q :: rest := by
  by_cases hs : env.sizeShort > 0
  · exact ⟨[.calcSize "short" env.sizeShort, .marketOrder "sell" env.sizeShort],
      by simp [tradePhase, h, le_of_lt h, hs]⟩
  · exact ⟨[.calcSize "short" env.sizeShort],
      by simp [tradePhase, h, le_of_lt h, hs]⟩

theorem tradePhase_flat_long (env : BrokerEnv) (q : Int) (k : Nat) (h : 0 < q) :
    (tradePhase env q "flat" k).2.1 = [BrokerEvent.marketOrder "sell" q] := by
  simp [tradePhase, h]

theorem tradePhase_flat_short (env : BrokerEnv) (q : Int) (k : Nat) (h : q < 0) :
    (tradePhase env q "flat" k).2.1 = [BrokerEvent.marketOrder "buy" (-q)] := by
  simp [tradePhase, h, not_lt_of_lt h]

theorem pre_no_placement (env : BrokerEnv) (q : Int) (d : String) :
    ∀ ev ∈ BrokerEvent.getStopOrders env.initStopOrders :: (tradePhase env q d 0).2.1,
      isStopPlacement ev = false := by
  intro ev hm
  rcases List.mem_cons.mp hm with h | hm
  · subst h
    rfl
  · exact isTradePhaseEvent_not_placement _ (tradePhase_events_kinds env q d 0 _ hm)

/-- Claim C8: cancel-then-flip ordering.  In a flip to long (initial
quantity negative) the trace starts with the initial stop observation, the
cancellation of those stops, then the closing market buy, so every other
event — in particular any opening market order — comes after; symmetrically
for a flip to short.  For a flat target the closing market order follows
the stop observation directly: no cancellation precedes it.  And in every
run, every event before the settlement wait is a non-placement event, so
new stop-loss/take-profit orders are placed only after settlement. -/
theorem claim_C8_cancel_then_flip (env : BrokerEnv) (info : InstrumentInfo)
    (ip : Option Position) (lev res : ℚ) (sp tp : Option ℚ) :
    (posQty ip < 0 →
      ∃ rest, (ensurePosition env info ip "long" lev res sp tp).2.2 =
        BrokerEvent.getStopOrders env.initStopOrders ::
        BrokerEvent.cancelStops env.initStopOrders ::
        BrokerEvent.marketOrder "buy" (-(posQty ip)) :: rest) ∧
    (0 < posQty ip →
      ∃ rest, (ensurePosition env info ip "short" lev res sp tp).2.2 =
        BrokerEvent.getStopOrders env.initStopOrders ::
        BrokerEvent.cancelStops env.initStopOrders ::
        BrokerEvent.marketOrder "sell" (posQty ip) :: rest) ∧
    (0 < posQty ip →
      ∃ rest, (ensurePosition env info ip "flat" lev res sp tp).2.2 =
        BrokerEvent.getStopOrders env.initStopOrders ::
        BrokerEvent.marketOrder "sell" (posQty ip) :: rest) ∧
    (posQty ip < 0 →
      ∃ rest, (ensurePosition env info ip "flat" lev res sp tp).2.2 =
        BrokerEvent.getStopOrders env.initStopOrders ::
        BrokerEvent.marketOrder "buy" (-(posQty ip)) :: rest) ∧
    (∀ desired, ∃ pre post e,
      (ensurePosition env info ip desired lev res sp tp).2.2 =
        pre ++ BrokerEvent.settleWait e :: post ∧
      ∀ ev ∈ pre, isStopPlacement ev = false) := by
  refine ⟨?_, ?_, ?_, ?_, ?_⟩
  · intro h
    obtain ⟨rest, hr⟩ := tradePhase_long_flip env (posQty ip) 0 h
    rcases hset : env.settle (tradePhase env (posQty ip) "long" 0).2.2.1 with _ | fpos
    · rw [ensurePosition_err env info ip "long" lev res sp tp hset]
      exact ⟨rest ++ [BrokerEvent.settleWait (tradePhase env (posQty ip) "long" 0).2.2.1],
        by rw [hr]; simp⟩
    · rw [ensurePosition_ok env info ip "long" lev res sp tp fpos hset]
      exact ⟨rest ++ [BrokerEvent.settleWait (tradePhase env (posQty ip) "long" 0).2.2.1] ++
          BrokerEvent.getStopOrders env.finalStopOrders ::
            (stopPhase env (posQty fpos) (posQty ip) sp tp
              (tradePhase env (posQty ip) "long" 0).2.2.2).2,
        by rw [hr]; simp⟩
  · intro h
    obtain ⟨rest, hr⟩ := tradePhase_short_flip env (posQty ip) 0 h
    rcases hset : env.settle (tradePhase env (posQty ip) "short" 0).2.2.1 with _ | fpos
    · rw [ensurePosition_err env info ip "short" lev res sp tp hset]
      exact ⟨rest ++ [BrokerEvent.settleWait (tradePhase env (posQty ip) "short" 0).2.2.1],
        by rw [hr]; simp⟩
    · rw [ensurePosition_ok env info ip "short" lev res sp tp fpos hset]
      exact ⟨rest ++ [BrokerEvent.settleWait (tradePhase env (posQty ip) "short" 0).2.2.1] ++
          BrokerEvent.getStopOrders env.finalStopOrders ::
            (stopPhase env (posQty fpos) (posQty ip) sp tp
              (tradePhase env (posQty ip) "short" 0).2.2.2).2,
        by rw [hr]; simp⟩
  · intro h
    have hr := tradePhase_flat_long env (posQty ip) 0 h
    rcases hset : env.settle (tradePhase env (posQty ip) "flat" 0).2.2.1 with _ | fpos
    · rw [ensurePosition_err env info ip "flat" lev res sp tp hset]
      exact ⟨[BrokerEvent.settleWait (tradePhase env (posQty ip) "flat" 0).2.2.1],
        by rw [hr]; simp⟩
    · rw [ensurePosition_ok env info ip "flat" lev res sp tp fpos hset]
      exact ⟨[BrokerEvent.settleWait (tradePhase env (posQty ip) "flat" 0).2.2.1] ++
          BrokerEvent.getStopOrders env.finalStopOrders ::
            (stopPhase env (posQty fpos) (posQty ip) sp tp
              (tradePhase env (posQty ip) "flat" 0).2.2.2).2,
        by rw [hr]; simp⟩
  · intro h
    have hr := tradePhase_flat_short env (posQty ip) 0 h
    rcases hset : env.settle (tradePhase env (posQty ip) "flat" 0).2.2.1 with _ | fpos
    · rw [ensurePosition_err env info ip "flat" lev res sp tp hset]
      exact ⟨[BrokerEvent.settleWait (tradePhase env (posQty ip) "flat" 0).2.2.1],
        by rw [hr]; simp⟩
    · rw [ensurePosition_ok env info ip "flat" lev res sp tp fpos hset]
      exact ⟨[BrokerEvent.settleWait (tradePhase env (posQty ip) "flat" 0).2.2.1] ++
          BrokerEvent.getStopOrders env.finalStopOrders ::
            (stopPhase env (posQty fpos) (posQty ip) sp tp
              (tradePhase env (posQty ip) "flat" 0).2.2.2).2,
        by rw [hr]; simp⟩
  · intro desired
    rcases hset : env.settle (tradePhase env (posQty ip) desired 0).2.2.1 with _ | fpos
    · rw [ensurePosition_err env info ip desired lev res sp tp hset]
      exact ⟨BrokerEvent.getStopOrders env.initStopOrders :: (tradePhase env (posQty ip) desired 0).2.1,
        [], (tradePhase env (posQty ip) desired 0).2.2.1, by simp,
        pre_no_placement env (posQty ip) desired⟩
    · rw [ensurePosition_ok env info ip desired lev res sp tp fpos hset]
      exact ⟨BrokerEvent.getStopOrders env.initStopOrders :: (tradePhase env (posQty ip) desired 0).2.1,
        BrokerEvent.getStopOrders env.finalStopOrders ::
          (stopPhase env (posQty fpos) (posQty ip) sp tp
            (tradePhase env (posQty ip) desired 0).2.2.2).2,
        (tradePhase env (posQty ip) desired 0).2.2.1, by simp,
        pre_no_placement env (posQty ip) desired⟩

theorem claim_C8_cancel_then_flip_witness :
    ∃ rest, (ensurePosition c3WitnessEnv c3Info (some ⟨"FUTSI", -1, 5⟩) "long" 100 0
        none none).2.2 =
      BrokerEvent.getStopOrders c3WitnessEnv.initStopOrders ::
      BrokerEvent.cancelStops c3WitnessEnv.initStopOrders ::
      BrokerEvent.marketOrder "buy" (-(posQty (some ⟨"FUTSI", -1, 5⟩))) :: rest :=
  (claim_C8_cancel_then_flip c3WitnessEnv c3Info (some ⟨"FUTSI", -1, 5⟩) 100 0
    none none).1 (by decide)

/-! Section: `calculate_position_size`

`FinamBrokerService.calculate_position_size` (finam.py 133-161): Python's
float `//` is a floor, and the `int()` around it truncates an already
integral float, so the computation is `Int.floor` over rationals.  The
balance and last price are the values fetched from the broker, passed here
as arguments.  A zero margin or per-lot cost raises `ZeroDivisionError` in
Python; the theorems below only use nonzero divisors. -/

def finamCalculatePositionSize (availableMoney lastPrice : ℚ) (info : InstrumentInfo)
    (leveragePercent reserveCapital : ℚ) (positionDirection : String) :
    Except TradingErr Int :=
  let totalCapital := availableMoney + reserveCapital
  let leverageCap := totalCapital * (leveragePercent / 100)
  if positionDirection = "long" then
    match info.initial_margin_long with
    | some m =>
      let quantityByBalance := Int.floor (availableMoney / m)
      let perLotCost := lastPrice * info.lot_size
      let quantityByLeverage := Int.floor (leverageCap / perLotCost)
      Except.ok (min quantityByBalance quantityByLeverage)
    | none => Except.error ⟨"TYPE_ERROR", "margin is not set"⟩
  else if positionDirection = "short" then
    match info.initial_margin_short with
    | some m =>
      let quantityByBalance := Int.floor (availableMoney / m)
      let perLotCost := lastPrice * info.lot_size
      let quantityByLeverage := Int.floor (leverageCap / perLotCost)
      Except.ok (min quantityByBalance quantityByLeverage)
    | none => Except.error ⟨"TYPE_ERROR", "margin is not set"⟩
  else Except.error ⟨"VALUE_ERROR", "invalid position direction"⟩

/-- Embeds `TInvestBrokerService.calculate_position_size` (tinvest.py 162-213).
The max-lots limits come from the broker's `GetMaxLots` response; the
protobuf response always carries the margin-limit fields, so the
`hasattr` fallback resolves to the margin limits. -/
def tinvestCalculatePositionSize (availableMoney lastPrice : ℚ) (info : InstrumentInfo)
    (leveragePercent reserveCapital : ℚ)
    (buyMaxLots sellMaxLots buyMarginMaxLots sellMarginMaxLots : Int)
    (positionDirection : String) : Except TradingErr Int :=
  let leverageCap := (availableMoney + reserveCapital) * (leveragePercent / 100)
  if positionDirection = "long" then
    let quantityByMargin := buyMarginMaxLots
    let perLotCost := lastPrice * info.lot_size
    let quantityByLeverage := Int.floor (leverageCap / perLotCost)
    Except.ok (min quantityByMargin quantityByLeverage)
  else if positionDirection = "short" then
    let quantityByMargin := sellMarginMaxLots
    let perLotCost := lastPrice * info.lot_size
    let quantityByLeverage := Int.floor (leverageCap / perLotCost)
    Except.ok (min quantityByMargin quantityByLeverage)
  else Except.error ⟨"INVALID_PRICE_POSITION_DIRECTION", "invalid price size position direction"⟩

/-- Claim C4, counterexample: with a negative available balance of -100,
margin 50 and last price 100 (lot size 1), the finam sizing returns `-2`,
so the result is not `max(0, min(...))` and is negative. -/
theorem claim_C4_counterexample :
    finamCalculatePositionSize (-100) 100 c3Info 100 0 "long" = Except.ok (-2) ∧
    (-2 : Int) < 0 := by
  constructor
  · simp only [finamCalculatePositionSize, c3Info]
    norm_num
  · decide

/-- Claim C4, amended: `calculate_position_size` returns exactly
`min(qty_by_balance, qty_by_leverage)` — with `qty_by_balance` the
margin-based floor for finam and the broker margin max-lots for tinvest,
and `qty_by_leverage = floor((balance + reserve) * leverage/100 /
(last_price * lot_size))` — with NO clamping at zero: the result is at most
each bound, equals one of them, and may be negative. -/
theorem claim_C4_amended (bal price lev res : ℚ) (info : InstrumentInfo)
    (mL mS : ℚ) (bMax sMax bml sml : Int)
    (hL : info.initial_margin_long = some mL)
    (hS : info.initial_margin_short = some mS) :
    (∀ r, finamCalculatePositionSize bal price info lev res "long" = Except.ok r →
      r ≤ Int.floor (bal / mL) ∧
      r ≤ Int.floor ((bal + res) * (lev / 100) / (price * info.lot_size)) ∧
      (r = Int.floor (bal / mL) ∨
       r = Int.floor ((bal + res) * (lev / 100) / (price * info.lot_size)))) ∧
    (∀ r, finamCalculatePositionSize bal price info lev res "short" = Except.ok r →
      r ≤ Int.floor (bal / mS) ∧
      r ≤ Int.floor ((bal + res) * (lev / 100) / (price * info.lot_size)) ∧
      (r = Int.floor (bal / mS) ∨
       r = Int.floor ((bal + res) * (lev / 100) / (price * info.lot_size)))) ∧
    (∀ r, tinvestCalculatePositionSize bal price info lev res bMax sMax bml sml "long" =
        Except.ok r →
      r ≤ bml ∧
      r ≤ Int.floor ((bal + res) * (lev / 100) / (price * info.lot_size)) ∧
      (r = bml ∨
       r = Int.floor ((bal + res) * (lev / 100) / (price * info.lot_size)))) ∧
    (∀ r, tinvestCalculatePositionSize bal price info lev res bMax sMax bml sml "short" =
        Except.ok r →
      r ≤ sml ∧
      r ≤ Int.floor ((bal + res) * (lev / 100) / (price * info.lot_size)) ∧
      (r = sml ∨
       r = Int.floor ((bal + res) * (lev / 100) / (price * info.lot_size)))) := by
  refine ⟨?_, ?_, ?_, ?_⟩ <;> intro r h
  · simp [finamCalculatePositionSize, hL] at h
    subst h
    exact ⟨min_le_left _ _, min_le_right _ _, min_choice _ _⟩
  · simp [finamCalculatePositionSize, hS] at h
    subst h
    exact ⟨min_le_left _ _, min_le_right _ _, min_choice _ _⟩
  · simp [tinvestCalculatePositionSize] at h
    subst h
    exact ⟨min_le_left _ _, min_le_right _ _, min_choice _ _⟩
  · simp [tinvestCalculatePositionSize] at h
    subst h
    exact ⟨min_le_left _ _, min_le_right _ _, min_choice _ _⟩

theorem claim_C4_amended_witness :
    (100 : Int) ≤ Int.floor ((10000 : ℚ) / 50) ∧
    (100 : Int) ≤ Int.floor (((10000 : ℚ) + 0) * (100 / 100) / (100 * c3Info.lot_size)) ∧
    ((100 : Int) = Int.floor ((10000 : ℚ) / 50) ∨
     (100 : Int) = Int.floor (((10000 : ℚ) + 0) * (100 / 100) / (100 * c3Info.lot_size))) :=
  (claim_C4_amended 10000 100 100 0 c3Info 50 50 0 0 0 0 rfl rfl).1 100
    (by show Except.ok (min (Int.floor ((10000 : ℚ) / 50))
          (Int.floor (((10000 : ℚ) + 0) * (100 / 100) / (100 * c3Info.lot_size)))) =
        Except.ok (100 : Int)
        norm_num [c3Info])

/-! Section: `get_position_waiting_for_state` (finam.py 103-115, tinvest.py 119-134)

Both brokers poll `get_position` up to `max_attempts` times; the successive
poll results are modelled as a function of the attempt index.  The default
arguments in both implementations (and the abstract declaration,
brokers/__init__.py line 77) are `max_attempts = 20`, `delay = 0.250`
seconds. -/

def settlementTimeoutErr : TradingErr :=
  ⟨"POSITION_STATE_READY_TIMEOUT", "position state ready timeout"⟩

/-- The polled condition on line 108 (finam) / 124 (tinvest):
`position and position.quantity == expected_quantity and
(position.average_price != 0 or expected_quantity == 0)
or not position and expected_quantity == 0`. -/
def positionStateReady (position : Option Position) (expectedQuantity : Int) : Bool :=
  match position with
  | some p =>
    decide (p.quantity = expectedQuantity) &&
      (decide (p.average_price ≠ 0) || decide (expectedQuantity = 0))
  | none => decide (expectedQuantity = 0)

def getPositionWaitingLoop (poll : Nat → Option Position) (expectedQuantity : Int) :
    Nat → Nat → Except TradingErr (Option Position)
  | _, 0 => Except.error settlementTimeoutErr
  | i, r + 1 =>
    let position := poll i
    if positionStateReady position expectedQuantity then Except.ok position
    else getPositionWaitingLoop poll expectedQuantity (i + 1) r

def getPositionWaitingForState (poll : Nat → Option Position)
    (expectedQuantity : Int) (maxAttempts : Nat) : Except TradingErr (Option Position) :=
  getPositionWaitingLoop poll expectedQuantity 0 maxAttempts

def defaultMaxAttempts : Nat := 20

def defaultDelaySeconds : ℚ := 1 / 4

theorem getPositionWaitingLoop_error_iff (poll : Nat → Option Position)
    (e : Int) (i r : Nat) :
    getPositionWaitingLoop poll e i r = Except.error settlementTimeoutErr ↔
      ∀ j < r, positionStateReady (poll (i + j)) e = false := by
  induction r generalizing i with
  | zero => simp [getPositionWaitingLoop]
  | succ r ih =>
    by_cases hr : positionStateReady (poll i) e = true
    · simp only [getPositionWaitingLoop, hr, if_true]
      constructor
      · intro h
        exact absurd h (by simp)
      · intro h
        have h0 := h 0 (Nat.succ_pos r)
        rw [Nat.add_zero] at h0
        rw [hr] at h0
        exact absurd h0 (by simp)
    · rw [Bool.not_eq_true] at hr
      have hg : getPositionWaitingLoop poll e i (r + 1) =
          getPositionWaitingLoop poll e (i + 1) r := by
        simp [getPositionWaitingLoop, hr]
      rw [hg, ih (i + 1)]
      constructor
      · intro h j hj
        rcases Nat.eq_zero_or_pos j with hj0 | hj0
        · subst hj0
          rwa [Nat.add_zero]
        · have := h (j - 1) (by omega)
          have hidx : i + 1 + (j - 1) = i + j := by omega
          rwa [hidx] at this
      · intro h j hj
        have := h (j + 1) (by omega)
        have hidx : i + (j + 1) = i + 1 + j := by omega
        rwa [hidx] at this

theorem getPositionWaitingLoop_ok (poll : Nat → Option Position)
    (e : Int) (i r : Nat) (res : Option Position)
    (h : getPositionWaitingLoop poll e i r = Except.ok res) :
    ∃ t < r, res = poll (i + t) ∧ positionStateReady (poll (i + t)) e = true ∧
      ∀ j < t, positionStateReady (poll (i + j)) e = false := by
  induction r generalizing i with
  | zero => exact absurd h (by simp [getPositionWaitingLoop])
  | succ r ih =>
    by_cases hr : positionStateReady (poll i) e = true
    · simp only [getPositionWaitingLoop, hr, if_true] at h
      refine ⟨0, Nat.succ_pos r, ?_, ?_, ?_⟩
      · rw [Nat.add_zero]
        exact (by injection h : poll i = res).symm
      · rw [Nat.add_zero]
        exact hr
      · intro j hj
        exact absurd hj (Nat.not_lt_zero j)
    · rw [Bool.not_eq_true] at hr
      have hg : getPositionWaitingLoop poll e i (r + 1) =
          getPositionWaitingLoop poll e (i + 1) r := by
        simp [getPositionWaitingLoop, hr]
      rw [hg] at h
      obtain ⟨t, ht, h1, h2, h3⟩ := ih (i + 1) h
      refine ⟨t + 1, by omega, ?_, ?_, ?_⟩
      · rwa [show i + (t + 1) = i + 1 + t by omega]
      · rwa [show i + (t + 1) = i + 1 + t by omega]
      · intro j hj
        rcases Nat.eq_zero_or_pos j with hj0 | hj0
        · subst hj0
          rwa [Nat.add_zero]
        · have := h3 (j - 1) (by omega)
          rwa [show i + 1 + (j - 1) = i + j by omega] at this

/-- Claim C6: the settlement wait returns the first polled position
satisfying the claim's condition (or absent when flat was expected), fails
with the settlement-timeout trading error exactly when no poll within
`max_attempts` satisfies it, and both broker implementations default to 20
attempts with a 250 ms delay. -/
theorem claim_C6_settlement_wait (poll : Nat → Option Position)
    (expectedQuantity : Int) (maxAttempts : Nat) :
    (getPositionWaitingForState poll expectedQuantity maxAttempts =
        Except.error settlementTimeoutErr ↔
      ∀ j < maxAttempts, positionStateReady (poll j) expectedQuantity = false) ∧
    (∀ res, getPositionWaitingForState poll expectedQuantity maxAttempts = Except.ok res →
      ∃ t < maxAttempts, res = poll t ∧
        positionStateReady (poll t) expectedQuantity = true ∧
        ∀ j < t, positionStateReady (poll j) expectedQuantity = false) ∧
    (∀ p, positionStateReady p expectedQuantity = true ↔
      ((∃ P, p = some P ∧ P.quantity = expectedQuantity ∧
          (P.average_price ≠ 0 ∨ expectedQuantity = 0)) ∨
        (p = none ∧ expectedQuantity = 0))) ∧
    defaultMaxAttempts = 20 ∧ defaultDelaySeconds = 250 / 1000 := by
  refine ⟨?_, ?_, ?_, rfl, by norm_num [defaultDelaySeconds]⟩
  · simpa using getPositionWaitingLoop_error_iff poll expectedQuantity 0 maxAttempts
  · intro res h
    simpa using getPositionWaitingLoop_ok poll expectedQuantity 0 maxAttempts res h
  · intro p
    rcases p with _ | P
    · simp [positionStateReady]
    · simp [positionStateReady]

theorem claim_C6_settlement_wait_witness :
    getPositionWaitingForState (fun _ => none) 1 20 = Except.error settlementTimeoutErr :=
  (claim_C6_settlement_wait (fun _ => none) 1 20).1.mpr (by decide)

/-! Section: `SignalService._calculate_profit` (signal_service.py 147-167)

`SignalService` uses the dataclasses of app/tinvest_service.py:
`PositionInfo`, `EnsurePositionOrder` (whose fill is `state`), and its
`InstrumentInfo` with an integer `lot_size` and an optional
`basic_asset_size`.  These live in the `SignalSvc` namespace. -/

namespace SignalSvc

structure PositionInfo where
  position_uid : String
  figi : String
  quantity : Int
  average_price : ℚ
deriving DecidableEq, Repr

structure EnsurePositionOrderState where
  date : Int
  price : ℚ
deriving DecidableEq, Repr

structure EnsurePositionOrder where
  type : String
  quantity : Int
  order_id : String
  action : Option String
  price : Option ℚ
  state : Option EnsurePositionOrderState
deriving DecidableEq, Repr

structure InstrumentInfo where
  figi : String
  instrument_type : String
  ticker : String
  name : String
  currency : String
  lot_size : Int
  min_price_increment : ℚ
  basic_asset_size : Option ℚ
deriving DecidableEq, Repr

/-- Python `(instrument.basic_asset_size or 1)`: `or` falls through to `1`
on `None` and also on a zero value (both are falsy). -/
def basicAssetSizeOr1 : Option ℚ → ℚ
  | some b => if b = 0 then 1 else b
  | none => 1

/-- Accessor for `ensure_order.state.price`.  The source reads it only on closing
orders, whose `state` was filled by `pull_ensure_orders_state` before
`_calculate_profit` runs (a missing state would be an `AttributeError`);
an absent state is modelled as price 0 and never reached in the theorems. -/
def stateFillPrice : Option EnsurePositionOrderState → ℚ
  | some s => s.price
  | none => 0

def calculateProfit (instrument : InstrumentInfo) (position : Option PositionInfo)
    (ensureOrders : List EnsurePositionOrder) : Option ℚ :=
  match position with
  | none => none
  | some pos =>
    if ensureOrders = [] then none
    else
      let actionFilter := if pos.quantity > 0 then "close_long" else "close_short"
      let profitMultiplier : ℚ := if pos.quantity > 0 then 1 else -1
      let profitOrders := ensureOrders.filter (fun eo => eo.action = some actionFilter)
      some (profitOrders.foldl (fun profit eo =>
        profit + profitMultiplier * (stateFillPrice eo.state - pos.average_price) *
          ((eo.quantity : ℚ) * (instrument.lot_size : ℚ) *
            basicAssetSizeOr1 instrument.basic_asset_size)) 0)

theorem foldl_add_eq_sum (f : EnsurePositionOrder → ℚ) (l : List EnsurePositionOrder)
    (a : ℚ) : l.foldl (fun acc eo => acc + f eo) a = a + (l.map f).sum := by
  induction l generalizing a with
  | nil => simp
  | cons x xs ih =>
    rw [List.foldl_cons, ih]
    simp [add_assoc]

end SignalSvc

def c7Instrument : SignalSvc.InstrumentInfo :=
  ⟨"FIGI1", "share", "ABC", "ABC Co", "rub", 1, 1 / 100, none⟩

def c7Position : SignalSvc.PositionInfo := ⟨"uid1", "FIGI1", 10, 100⟩

/-- Orders from a stop-only refresh of an existing long: one stop-loss
order, no closing legs. -/
def c7Orders : List SignalSvc.EnsurePositionOrder :=
  [⟨"stop_loss", 10, "o1", none, some 95, none⟩]

/-- Claim C7, counterexample: with a prior long position and a non-empty
order list that contains no closing order (a stop-only refresh),
`_calculate_profit` returns `0.0`, not absent as the claim demands. -/
theorem claim_C7_counterexample :
    SignalSvc.calculateProfit c7Instrument (some c7Position) c7Orders = some 0 ∧
    (c7Orders.filter (fun eo => eo.action = some "close_long")).length = 0 ∧
    c7Orders ≠ [] := by
  exact ⟨rfl, rfl, by decide⟩

/-- Claim C7, amended: `_calculate_profit` returns absent exactly when no
prior position existed or the order list is empty; otherwise it returns
the sum over the closing orders (action `close_long` when the prior
quantity is positive, `close_short` otherwise) of
`sign * (fill.price - init.average_price) * quantity * lot_size *
(basic_asset_size or 1)` with `sign = +1` for a prior long and `-1`
otherwise — in particular it returns `0.0`, not absent, when orders exist
but none of them is a closing order. -/
theorem claim_C7_amended (instrument : SignalSvc.InstrumentInfo)
    (position : Option SignalSvc.PositionInfo)
    (ensureOrders : List SignalSvc.EnsurePositionOrder) :
    (SignalSvc.calculateProfit instrument position ensureOrders = none ↔
      position = none ∨ ensureOrders = []) ∧
    (∀ pos, position = some pos → ensureOrders ≠ [] →
      SignalSvc.calculateProfit instrument position ensureOrders =
        some (((ensureOrders.filter (fun eo => eo.action =
            some (if pos.quantity > 0 then "close_long" else "close_short"))).map
          (fun eo => (if pos.quantity > 0 then (1 : ℚ) else -1) *
            (SignalSvc.stateFillPrice eo.state - pos.average_price) *
            ((eo.quantity : ℚ) * (instrument.lot_size : ℚ) *
              SignalSvc.basicAssetSizeOr1 instrument.basic_asset_size))).sum)) := by
  constructor
  · rcases position with _ | pos
    · simp [SignalSvc.calculateProfit]
    · by_cases he : ensureOrders = [] <;> simp [SignalSvc.calculateProfit, he]
  · intro pos hpos hne
    subst hpos
    simp only [SignalSvc.calculateProfit, if_neg hne]
    congr 1
    exact (SignalSvc.foldl_add_eq_sum
      (fun eo => (if pos.quantity > 0 then (1 : ℚ) else -1) *
        (SignalSvc.stateFillPrice eo.state - pos.average_price) *
        ((eo.quantity : ℚ) * (instrument.lot_size : ℚ) *
          SignalSvc.basicAssetSizeOr1 instrument.basic_asset_size))
      (ensureOrders.filter (fun eo => eo.action =
        some (if pos.quantity > 0 then "close_long" else "close_short"))) 0).trans
      (zero_add _)

/-- Closing leg used by the C7 witness: a sell fill at 110. -/
def c7WitnessOrders : List SignalSvc.EnsurePositionOrder :=
  [⟨"sell", 10, "o2", some "close_long", none, some ⟨0, 110⟩⟩]

theorem claim_C7_amended_witness :
    SignalSvc.calculateProfit c7Instrument (some c7Position) c7WitnessOrders =
      some (((c7WitnessOrders.filter (fun eo => eo.action =
          some (if c7Position.quantity > 0 then "close_long" else "close_short"))).map
        (fun eo => (if c7Position.quantity > 0 then (1 : ℚ) else -1) *
          (SignalSvc.stateFillPrice eo.state - c7Position.average_price) *
          ((eo.quantity : ℚ) * (c7Instrument.lot_size : ℚ) *
            SignalSvc.basicAssetSizeOr1 c7Instrument.basic_asset_size))).sum) :=
  (claim_C7_amended c7Instrument (some c7Position) c7WitnessOrders).2 c7Position rfl
    (by decide)

/-! Section: `Instrument.from_string` / `Instrument.__str__` (schemas.py 37-58)

Strings are modelled as lists of characters.  `value.split("@", 1)` splits
at the first `'@'` when one exists. -/

def splitOnceAt (c : Char) : List Char → Option (List Char × List Char)
  | [] => none
  | x :: xs =>
    if x = c then some ([], xs)
    else
      match splitOnceAt c xs with
      | some (a, b) => some (x :: a, b)
      | none => none

/-- Embeds `Instrument.from_string`: the parse succeeds iff the string contains
an `'@'` and both the part before the first `'@'` and the part after it
are nonempty; otherwise `ValueError` (modelled as `none`). -/
def instrumentFromString (s : List Char) : Option (List Char × List Char) :=
  match splitOnceAt '@' s with
  | some (t, c) => if t ≠ [] ∧ c ≠ [] then some (t, c) else none
  | none => none

/-- Embeds `Instrument.__str__`: `f"{ticker}@{class_code}"`. -/
def instrumentToString (ticker class_code : List Char) : List Char :=
  ticker ++ '@' :: class_code

theorem splitOnceAt_some (c : Char) (s a b : List Char)
    (h : splitOnceAt c s = some (a, b)) : s = a ++ c :: b ∧ c ∉ a := by
  induction s generalizing a with
  | nil => exact absurd h (by simp [splitOnceAt])
  | cons x xs ih =>
    by_cases hx : x = c
    · subst hx
      simp only [splitOnceAt, if_pos rfl] at h
      obtain ⟨rfl, rfl⟩ : ([] : List Char) = a ∧ xs = b := by
        constructor
        · injection (by injection h : (([] : List Char), xs) = (a, b))
        · injection (by injection h : (([] : List Char), xs) = (a, b))
      simp
    · simp only [splitOnceAt, if_neg hx] at h
      rcases hs : splitOnceAt c xs with _ | p
      · rw [hs] at h
        exact absurd h (by simp)
      · rw [hs] at h
        rcases p with ⟨a', b'⟩
        obtain ⟨rfl, rfl⟩ : x :: a' = a ∧ b' = b := by
          constructor
          · injection (by injection h : (x :: a', b') = (a, b))
          · injection (by injection h : (x :: a', b') = (a, b))
        obtain ⟨h1, h2⟩ := ih a' hs
        constructor
        · rw [h1]
          simp
        · intro hm
          rcases List.mem_cons.mp hm with hm | hm
          · exact hx hm.symm
          · exact h2 hm

theorem splitOnceAt_of_decomp (c : Char) (t b : List Char) (ht : c ∉ t) :
    splitOnceAt c (t ++ c :: b) = some (t, b) := by
  induction t with
  | nil => simp [splitOnceAt]
  | cons x xs ih =>
    have hx : x ≠ c := fun hxc => ht (hxc ▸ List.mem_cons_self x xs)
    have hxs : c ∉ xs := fun hm => ht (List.mem_cons_of_mem x hm)
    rw [List.cons_append, splitOnceAt, if_neg hx, ih hxs]

/-- Claim C9: `Instrument.from_string` accepts exactly the strings of the
form `ticker ++ "@" ++ class` with a nonempty `ticker` free of `'@'`
(i.e. the part before the first `'@'`) and a nonempty remainder, and on
every accepted string, `str(Instrument.from_string(s)) == s`. -/
theorem claim_C9_instrument_roundtrip (s : List Char) :
    ((instrumentFromString s).isSome ↔
      ∃ t c, s = t ++ '@' :: c ∧ t ≠ [] ∧ c ≠ [] ∧ '@' ∉ t) ∧
    (∀ t c, instrumentFromString s = some (t, c) → instrumentToString t c = s) := by
  constructor
  · constructor
    · intro h
      rcases hs : splitOnceAt '@' s with _ | ⟨t, c⟩
      · simp [instrumentFromString, hs] at h
      · simp only [instrumentFromString, hs] at h
        by_cases hc : t ≠ [] ∧ c ≠ []
        · obtain ⟨h1, h2⟩ := splitOnceAt_some '@' s t c hs
          exact ⟨t, c, h1, hc.1, hc.2, h2⟩
        · simp [hc] at h
    · intro ⟨t, c, hdec, ht, hc, hnm⟩
      subst hdec
      simp [instrumentFromString, splitOnceAt_of_decomp '@' t c hnm, ht, hc]
  · intro t c h
    rcases hs : splitOnceAt '@' s with _ | ⟨t', c'⟩
    · simp [instrumentFromString, hs] at h
    · simp only [instrumentFromString, hs] at h
      by_cases hcond : t' ≠ [] ∧ c' ≠ []
      · simp [hcond.1, hcond.2] at h
        obtain ⟨rfl, rfl⟩ := h
        exact (splitOnceAt_some '@' s t' c' hs).1.symm
      · simp [hcond] at h

theorem claim_C9_instrument_roundtrip_witness :
    instrumentToString ['S', 'B', 'E', 'R'] ['T', 'Q', 'B', 'R'] =
      ['S', 'B', 'E', 'R', '@', 'T', 'Q', 'B', 'R'] :=
  (claim_C9_instrument_roundtrip ['S', 'B', 'E', 'R', '@', 'T', 'Q', 'B', 'R']).2
    ['S', 'B', 'E', 'R'] ['T', 'Q', 'B', 'R'] rfl

/-! Section: `TInvestBrokerService.get_money_balance` (tinvest.py 136-146) -/

structure MoneyValue where
  currency : String
  units : Int
  nano : Int
deriving DecidableEq, Repr

/-- Scan the portfolio money positions for the requested currency and
return `units + nano / 1e9`; return `0.0` when no entry matches. -/
def getMoneyBalance : List MoneyValue → String → ℚ
  | [], _ => 0
  | m :: rest, currency =>
    if m.currency = currency then (m.units : ℚ) + (m.nano : ℚ) / 1000000000
    else getMoneyBalance rest currency

/-- Claim C10: when no money entry carries the requested currency,
`get_money_balance` returns `0.0` instead of raising. -/
theorem claim_C10_unknown_currency (money : List MoneyValue) (currency : String)
    (h : ∀ m ∈ money, m.currency ≠ currency) :
    getMoneyBalance money currency = 0 := by
  induction money with
  | nil => rfl
  | cons m rest ih =>
    have hm := h m (List.mem_cons_self m rest)
    rw [getMoneyBalance, if_neg hm]
    exact ih (fun x hx => h x (List.mem_cons_of_mem m hx))

theorem claim_C10_unknown_currency_witness :
    getMoneyBalance [⟨"usd", 5, 0⟩, ⟨"eur", 7, 10⟩] "rub" = 0 :=
  claim_C10_unknown_currency [⟨"usd", 5, 0⟩, ⟨"eur", 7, 10⟩] "rub" (by decide)

end Trading
